import Mathlib

/-!
Shallow embedding of the media segmentation / region-extraction / merge
pipeline of `src/ffmpeg.rs` (struct `FFmpegClient`).

Modelling conventions:
* File paths and all other OS byte strings are `List Nat` (byte values);
  Rust `PathBuf` ordering is byte-lexicographic, modelled by `lexLt`/`lexLe`.
* External process invocations are modelled by an oracle value `CmdOut`
  (exit status plus captured output streams) supplied per call site, and the
  argument vector each call site would pass is recorded in a trace so that
  theorems can speak about which invocations were issued and in what order.
* Filesystem effects (`create_dir_all`, `read_dir`, `fs::write`) are modelled
  by Boolean success oracles plus, for `read_dir`, the directory listing
  (the full entry paths) supplied as input.
* Rust panics coming from `Option::expect` on unset configuration are
  modelled as the `Err.config` outcome: fatal, surfaced to the caller,
  and producing no external invocation.
* `f64` times appear only in comparisons with `0.0`, a subtraction, and
  textual rendering into the argument vector; they are modelled as `ℚ`
  (exact for every value the code manipulates; NaN is not modelled).
-/

/-- Byte-lexicographic strict order on byte strings, the strict part of the
`Ord` instance Rust uses to compare `PathBuf`s. -/
def lexLt : List Nat → List Nat → Bool
  | [], [] => false
  | [], _ :: _ => true
  | _ :: _, [] => false
  | a :: as, b :: bs => if a < b then true else if b < a then false else lexLt as bs

/-- Byte-lexicographic non-strict order on byte strings, the `le` used to
model `Vec::sort` on `PathBuf`s. -/
def lexLe : List Nat → List Nat → Bool
  | [], _ => true
  | _ :: _, [] => false
  | a :: as, b :: bs => if a < b then true else if b < a then false else lexLe as bs

/-- Substring test on byte strings, modelling Rust `str::contains` for a
literal pattern. -/
def containsSeq (pat : List Nat) : List Nat → Bool
  | [] => pat.isEmpty
  | b :: bs => pat.isPrefixOf (b :: bs) || containsSeq pat bs

/-- The component of a path after the last `/` (byte 47). -/
def after_last_sep (p : List Nat) : List Nat :=
  p.foldl (fun acc b => if b = 47 then [] else acc ++ [b]) []

/-- Models Rust `Path::file_name`: the final path component, `none` for an
empty final component or the special components `.` and `..`.  (Entries
produced by `read_dir` never end in a separator or a dot component, which is
the use this model serves.) -/
def file_name_of (p : List Nat) : Option (List Nat) :=
  let n := after_last_sep p
  if n = [] ∨ n = [46] ∨ n = [46, 46] then none else some n

/-- Splits off the bytes before the first occurrence of `sep`, returning
`none` when `sep` does not occur. -/
def rev_take_until (sep : Nat) : List Nat → Option (List Nat × List Nat)
  | [] => none
  | b :: bs =>
    if b = sep then some ([], bs)
    else
      match rev_take_until sep bs with
      | none => none
      | some (x, y) => some (b :: x, y)

/-- Models Rust `Path::extension`: the portion of the file name after the
final `.` (byte 46), `none` when there is no file name, no dot, or the only
dot is the leading byte of the file name. -/
def extension_of (p : List Nat) : Option (List Nat) :=
  match file_name_of p with
  | none => none
  | some n =>
    match rev_take_until 46 n.reverse with
    | none => none
    | some (extRev, restRev) => if restRev = [] then none else some extRev.reverse

/-- Models `PathBuf::join` for a relative file name: directory, separator
byte `/`, name. -/
def path_join (dir name : List Nat) : List Nat := dir ++ [47] ++ name

/-- Bytes of the segment-mode output template `chunk_%03d.mp3`. -/
def chunk_pattern : List Nat := [99, 104, 117, 110, 107, 95, 37, 48, 51, 100, 46, 109, 112, 51]

/-- Bytes of the literal template placeholder `%03d` excluded by the
directory scan. -/
def pattern_placeholder : List Nat := [37, 48, 51, 100]

/-- Bytes of the expected chunk extension `mp3`. -/
def mp3_ext : List Nat := [109, 112, 51]

/-- Bytes of the region-split output name `chunk_before.mp3`. -/
def before_name : List Nat :=
  [99, 104, 117, 110, 107, 95, 98, 101, 102, 111, 114, 101, 46, 109, 112, 51]

/-- Bytes of the region-split output name `chunk_selected.mp3`. -/
def selected_name : List Nat :=
  [99, 104, 117, 110, 107, 95, 115, 101, 108, 101, 99, 116, 101, 100, 46, 109, 112, 51]

/-- Bytes of the region-split output name `chunk_after.mp3`. -/
def after_name : List Nat :=
  [99, 104, 117, 110, 107, 95, 97, 102, 116, 101, 114, 46, 109, 112, 51]

/-- Bytes of the fixed temporary manifest file name `concat.txt`. -/
def concat_txt : List Nat := [99, 111, 110, 99, 97, 116, 46, 116, 120, 116]

/-- One argument of an external tool invocation: a literal flag, a path, a
rendered time (`f64` formatting, modelled exactly as the rational), or a
rendered unsigned integer. -/
inductive Arg where
  | flag : String → Arg
  | path : List Nat → Arg
  | time : ℚ → Arg
  | num : Nat → Arg
deriving DecidableEq

/-- Captured outcome of one external invocation: exit-status success flag and
the two captured streams, modelling `std::process::Output`. -/
structure CmdOut where
  status : Bool
  stdout : List Nat
  stderr : List Nat
deriving DecidableEq

/-- Failure outcomes of the pipeline.  In the Rust source every returned
failure is an `std::io::Error`; the constructor records the return site:
`config` for an `expect` panic on unset configuration, `fs` for a propagated
filesystem error, `process` for a non-zero exit (payload: the captured
standard-error bytes surfaced verbatim), `empty` for the no-output failure. -/
inductive Err where
  | config : String → Err
  | fs : String → Err
  | process : List Nat → Err
  | empty : String → Err
deriving DecidableEq

/-- Configuration state of `FFmpegClient`: the three builder-settable fields
used by the segmentation pipeline (`chunk_duration` in whole seconds, as
built by `Duration::from_secs`). -/
structure FFmpegClient where
  input_file : Option (List Nat)
  output_dir : Option (List Nat)
  chunk_duration : Option Nat

/-- Replaces every single-quote byte `39` by the four-byte sequence
`39 92 39 39`, modelling `str::replace` on the one-byte pattern. -/
def escape_single_quotes : List Nat → List Nat
  | [] => []
  | b :: bs =>
    if b = 39 then 39 :: 92 :: 39 :: 39 :: escape_single_quotes bs
    else b :: escape_single_quotes bs

/-- Manifest text built by `create_concat_file`: starting from the empty
string, for each chunk append `file '<escaped path>'` and a newline
(bytes of `file '` are `102 105 108 101 32 39`; closing quote 39;
newline 10). -/
def concat_content (chunks : List (List Nat)) : List Nat :=
  chunks.foldl
    (fun content c =>
      content ++ ([102, 105, 108, 101, 32, 39] ++ escape_single_quotes c ++ [39, 10]))
    []

/-- Models `create_concat_file`: writes the manifest to the fixed temporary
path `<tmpDir>/concat.txt` and returns that path together with the written
content; a failing write surfaces the filesystem error. -/
def create_concat_file (tmpDir : List Nat) (chunks : List (List Nat)) (writeOk : Bool) :
    Except Err (List Nat × List Nat) :=
  if writeOk then Except.ok (path_join tmpDir concat_txt, concat_content chunks)
  else Except.error (Err.fs "write concat file")

/-- Argument vector of the concatenation invocation issued by
`merge_chunks`. -/
def concat_args (concatFile outputPath : List Nat) : List Arg :=
  [Arg.flag "-f", Arg.flag "concat", Arg.flag "-safe", Arg.flag "0",
   Arg.flag "-i", Arg.path concatFile, Arg.flag "-c", Arg.flag "copy",
   Arg.path outputPath]

/-- Models `merge_chunks`: build the manifest, invoke the concatenation mode
once, surface a non-zero exit as `Err.process` carrying the captured
standard error; returns the result together with the trace of issued
invocations. -/
def merge_chunks (tmpDir : List Nat) (chunks : List (List Nat)) (output_path : List Nat)
    (writeOk : Bool) (cmd : CmdOut) :
    Except Err (List Nat) × List (List Arg) :=
  match create_concat_file tmpDir chunks writeOk with
  | Except.error er => (Except.error er, [])
  | Except.ok cf =>
    let args := concat_args cf.1 output_path
    if cmd.status then (Except.ok output_path, [args])
    else (Except.error (Err.process cmd.stderr), [args])

/-- Argument vector of the single-extraction invocation issued by
`extract_chunk`: input, start offset, a duration of `end - start` exactly
when `end` is non-negative, stream copy, output. -/
def extract_chunk_args (input : List Nat) (start endTime : ℚ) (output : List Nat) :
    List Arg :=
  [Arg.flag "-i", Arg.path input, Arg.flag "-ss", Arg.time start]
    ++ (if 0 ≤ endTime then [Arg.flag "-t", Arg.time (endTime - start)] else [])
    ++ [Arg.flag "-c", Arg.flag "copy", Arg.path output]

/-- Models `extract_chunk`: one external invocation; on success the output
path is returned, on non-zero exit the captured standard error is surfaced
as `Err.process`. -/
def extract_chunk (input : List Nat) (start endTime : ℚ) (output : List Nat)
    (o : CmdOut) : Except Err (List Nat) :=
  if o.status then Except.ok output else Except.error (Err.process o.stderr)

/-- Tests whether an argument vector carries a `-t` duration argument. -/
def has_duration_arg (args : List Arg) : Bool :=
  args.any fun a =>
    match a with
    | Arg.flag f => f == "-t"
    | _ => false

/-- Models `split_at_region`: three extractions in the fixed order
before (`0` to `start`), selected (`start` to `end`), after (`end` to the
end-of-file sentinel `-1`), each through `extract_chunk`.  Returns the
result, the trace of issued invocations, and the chunk files created on
disk by the successful invocations (a failed invocation creates none). -/
def split_at_region (cfg : FFmpegClient) (start_time end_time : ℚ)
    (o1 o2 o3 : CmdOut) :
    Except Err (List (List Nat)) × List (List Arg) × List (List Nat) :=
  match cfg.input_file with
  | none => (Except.error (Err.config "Input file not set"), [], [])
  | some input =>
    match cfg.output_dir with
    | none => (Except.error (Err.config "Output directory not set"), [], [])
    | some output_dir =>
      let p1 := path_join output_dir before_name
      let p2 := path_join output_dir selected_name
      let p3 := path_join output_dir after_name
      match extract_chunk input 0 start_time p1 o1 with
      | Except.error er => (Except.error er, [extract_chunk_args input 0 start_time p1], [])
      | Except.ok c1 =>
        match extract_chunk input start_time end_time p2 o2 with
        | Except.error er =>
          (Except.error er,
           [extract_chunk_args input 0 start_time p1,
            extract_chunk_args input start_time end_time p2], [c1])
        | Except.ok c2 =>
          match extract_chunk input end_time (-1) p3 o3 with
          | Except.error er =>
            (Except.error er,
             [extract_chunk_args input 0 start_time p1,
              extract_chunk_args input start_time end_time p2,
              extract_chunk_args input end_time (-1) p3], [c1, c2])
          | Except.ok c3 =>
            (Except.ok [c1, c2, c3],
             [extract_chunk_args input 0 start_time p1,
              extract_chunk_args input start_time end_time p2,
              extract_chunk_args input end_time (-1) p3], [c1, c2, c3])

/-- Argument vector of the segmentation invocation issued by
`split_into_chunks`. -/
def segment_args (input : List Nat) (durSecs : Nat) (outputPattern : List Nat) :
    List Arg :=
  [Arg.flag "-i", Arg.path input, Arg.flag "-f", Arg.flag "segment",
   Arg.flag "-segment_time", Arg.num durSecs, Arg.flag "-c", Arg.flag "copy",
   Arg.flag "-reset_timestamps", Arg.num 1, Arg.path outputPattern]

/-- Directory-scan filter of `split_into_chunks`: extension equals `mp3` and
the file name does not contain the literal placeholder `%03d` (paths with no
file name are excluded). -/
def chunk_filter (p : List Nat) : Bool :=
  (extension_of p == some mp3_ext) &&
    (match file_name_of p with
     | some n => ! containsSeq pattern_placeholder n
     | none => false)

/-- Models `split_into_chunks`: require the three configuration fields (an
unset one is the `expect` panic, modelled `Err.config`), create the output
directory, invoke segment mode once, surface a non-zero exit as
`Err.process` with the captured standard error, then scan the directory
listing, keep the paths passing `chunk_filter`, sort them byte-
lexicographically, and fail with the distinct `Err.empty` outcome when no
chunk matched.  Returns the result together with the trace of issued
invocations. -/
def split_into_chunks (cfg : FFmpegClient) (dirOk : Bool) (cmd : CmdOut)
    (readOk : Bool) (listing : List (List Nat)) :
    Except Err (List (List Nat)) × List (List Arg) :=
  match cfg.input_file with
  | none => (Except.error (Err.config "Input file not set"), [])
  | some input =>
    match cfg.output_dir with
    | none => (Except.error (Err.config "Output directory not set"), [])
    | some output_dir =>
      match cfg.chunk_duration with
      | none => (Except.error (Err.config "Chunk duration not set"), [])
      | some dur =>
        if dirOk = false then (Except.error (Err.fs "create_dir_all"), [])
        else
          let args := segment_args input dur (path_join output_dir chunk_pattern)
          if cmd.status = false then (Except.error (Err.process cmd.stderr), [args])
          else if readOk = false then (Except.error (Err.fs "read_dir"), [args])
          else
            let chunks := (listing.filter chunk_filter).mergeSort lexLe
            if chunks.isEmpty then
              (Except.error (Err.empty "No chunks were created"), [args])
            else (Except.ok chunks, [args])

/-- Decimal digit bytes of `n`, most significant first (`48` is the byte of
the digit `0`). -/
def dec_digits (n : Nat) : List Nat :=
  ((Nat.digits 10 n).reverse).map fun d => 48 + d

/-- Models the external `printf`-style `%03d` field of the segment template:
the decimal rendering of `n`, left-padded with `0` bytes to width three
(wider numbers keep all their digits). -/
def pct03 (n : Nat) : List Nat :=
  let ds := if n = 0 then [48] else dec_digits n
  List.replicate (3 - ds.length) 48 ++ ds

/-- File name the segment template `chunk_%03d.mp3` produces for chunk
index `i`. -/
def chunk_file_name (i : Nat) : List Nat :=
  [99, 104, 117, 110, 107, 95] ++ pct03 i ++ [46, 109, 112, 51]

/-! Helper lemmas about the byte-lexicographic orders. -/

theorem lexLe_total : ∀ (a b : List Nat), (lexLe a b || lexLe b a) = true
  | [], b => by simp [lexLe]
  | a :: as, [] => by simp [lexLe]
  | a :: as, b :: bs => by
    simp only [lexLe]
    rcases Nat.lt_trichotomy a b with h | h | h
    · simp [h]
    · subst h
      simp only [Nat.lt_irrefl, if_false]
      exact lexLe_total as bs
    · simp [h, Nat.lt_asymm h]

theorem lexLe_trans : ∀ (a b c : List Nat),
    lexLe a b = true → lexLe b c = true → lexLe a c = true
  | [], _, _ => by simp [lexLe]
  | a :: as, [], c => by simp [lexLe]
  | a :: as, b :: bs, [] => by simp [lexLe]
  | a :: as, b :: bs, c :: cs => by
    intro h1 h2
    simp only [lexLe] at h1 h2 ⊢
    rcases Nat.lt_trichotomy a b with hab | hab | hab
    · rcases Nat.lt_trichotomy b c with hbc | hbc | hbc
      · simp [Nat.lt_trans hab hbc]
      · subst hbc; simp [hab]
      · simp [Nat.lt_asymm hbc, hbc] at h2
    · subst hab
      simp only [Nat.lt_irrefl, if_false] at h1 ⊢
      rcases Nat.lt_trichotomy a c with hac | hac | hac
      · simp [hac]
      · subst hac
        simp only [Nat.lt_irrefl, if_false] at h2 ⊢
        exact lexLe_trans as bs cs h1 h2
      · simp [Nat.lt_asymm hac, hac] at h2
    · simp [Nat.lt_asymm hab, hab] at h1

theorem lexLe_of_lexLt : ∀ (a b : List Nat), lexLt a b = true → lexLe a b = true
  | [], [] => by simp [lexLe]
  | [], _ :: _ => by simp [lexLe]
  | _ :: _, [] => by simp [lexLt]
  | a :: as, b :: bs => by
    intro h
    simp only [lexLt] at h
    simp only [lexLe]
    rcases Nat.lt_trichotomy a b with hab | hab | hab
    · simp [hab]
    · subst hab
      simp only [Nat.lt_irrefl, if_false] at h ⊢
      exact lexLe_of_lexLt as bs h
    · simp [Nat.lt_asymm hab, hab] at h

theorem lexLt_append_left (d a b : List Nat) : lexLt (d ++ a) (d ++ b) = lexLt a b := by
  induction d with
  | nil => rfl
  | cons x xs ih => simp [lexLt, Nat.lt_irrefl, ih]

theorem pct03_eq_digits (n : Nat) (h : n ≤ 999) :
    pct03 n = [48 + n / 100, 48 + n / 10 % 10, 48 + n % 10] := by
  rcases Nat.lt_or_ge n 10 with h10 | h10
  · rcases Nat.eq_zero_or_pos n with h0 | h0
    · subst h0; rfl
    · have hne : n ≠ 0 := by omega
      have hd : Nat.digits 10 n = [n] := Nat.digits_of_lt 10 n hne h10
      have e1 : n / 100 = 0 := by omega
      have e2 : n / 10 % 10 = 0 := by omega
      have e3 : n % 10 = n := by omega
      simp [pct03, dec_digits, hne, hd, e1, e2, e3, List.replicate]
  · rcases Nat.lt_or_ge n 100 with h100 | h100
    · have hne : n ≠ 0 := by omega
      have hd1 : Nat.digits 10 n = n % 10 :: Nat.digits 10 (n / 10) :=
        Nat.digits_def' (by norm_num) (by omega)
      have hd2 : Nat.digits 10 (n / 10) = [n / 10] :=
        Nat.digits_of_lt 10 (n / 10) (by omega) (by omega)
      have e1 : n / 100 = 0 := by omega
      have e2 : n / 10 % 10 = n / 10 := by omega
      simp [pct03, dec_digits, hne, hd1, hd2, e1, e2, List.replicate]
    · have hne : n ≠ 0 := by omega
      have hd1 : Nat.digits 10 n = n % 10 :: Nat.digits 10 (n / 10) :=
        Nat.digits_def' (by norm_num) (by omega)
      have hd2 : Nat.digits 10 (n / 10) = n / 10 % 10 :: Nat.digits 10 (n / 10 / 10) :=
        Nat.digits_def' (by norm_num) (by omega)
      have hdd : n / 10 / 10 = n / 100 := by omega
      have hd3 : Nat.digits 10 (n / 100) = [n / 100] :=
        Nat.digits_of_lt 10 (n / 100) (by omega) (by omega)
      simp [pct03, dec_digits, hne, hd1, hd2, hdd, hd3]

theorem lexLt_cons_cons (a b : Nat) (as bs : List Nat) :
    lexLt (a :: as) (b :: bs) =
      if a < b then true else if b < a then false else lexLt as bs := rfl

theorem lexLt_self : ∀ (t : List Nat), lexLt t t = false
  | [] => rfl
  | a :: as => by simp [lexLt_cons_cons, Nat.lt_irrefl, lexLt_self as]

theorem lexLt_three (a1 a2 a3 b1 b2 b3 : Nat) (t : List Nat) :
    lexLt (a1 :: a2 :: a3 :: t) (b1 :: b2 :: b3 :: t) =
      (if a1 < b1 then true else if b1 < a1 then false else
       if a2 < b2 then true else if b2 < a2 then false else
       if a3 < b3 then true else if b3 < a3 then false else false) := by
  simp only [lexLt_cons_cons, lexLt_self]

theorem chunk_names_key (n : Nat) (hn : n ≤ 999) (i j : Nat) (hi : i < n) (hj : j < n) :
    lexLt (chunk_file_name i) (chunk_file_name j) = true ↔ i < j := by
  have hi9 : i ≤ 999 := by omega
  have hj9 : j ≤ 999 := by omega
  rw [chunk_file_name, chunk_file_name, pct03_eq_digits i hi9, pct03_eq_digits j hj9,
      List.append_assoc, List.append_assoc, lexLt_append_left]
  simp only [List.cons_append, List.nil_append]
  rw [lexLt_three]
  split_ifs <;> simp <;> omega

/-- Claim C3: for every chunk count `n` not exceeding `10 ^ 3 - 1 = 999` (the
3-digit zero-padded template `chunk_%03d`), byte-lexicographic order on the
produced chunk file names coincides with ascending temporal (numeric-index)
order, so the lexicographic ascending sort performed by the scan equals the
temporal order: sorting the temporally ordered name list is a no-op. -/
theorem chunk_names_lex_equals_temporal (n : Nat) (hn : n ≤ 999) :
    (∀ i j, i < n → j < n →
      (lexLt (chunk_file_name i) (chunk_file_name j) = true ↔ i < j))
    ∧ ((List.range n).map chunk_file_name).mergeSort lexLe
        = (List.range n).map chunk_file_name := by
  have key := fun i j hi hj => chunk_names_key n hn i j hi hj
  refine ⟨key, ?_⟩
  have pw : List.Pairwise (fun a b => lexLe a b = true)
      ((List.range n).map chunk_file_name) := by
    rw [List.pairwise_map]
    refine (List.pairwise_lt_range n).imp_of_mem ?_
    intro a b ha hb hab
    exact lexLe_of_lexLt _ _ ((key a b (List.mem_range.mp ha) (List.mem_range.mp hb)).mpr hab)
  exact List.mergeSort_of_sorted pw

/-- Witness for C3 at the concrete count `n = 3`, indices `1` and `2`. -/
theorem chunk_names_lex_equals_temporal_witness :
    lexLt (chunk_file_name 1) (chunk_file_name 2) = true ↔ 1 < 2 :=
  (chunk_names_lex_equals_temporal 3 (by decide)).1 1 2 (by decide) (by decide)

/-- Claim C4: the merge manifest built by `create_concat_file` is exactly one
record per chunk, of the form `file '<path>'` followed by a newline (bytes
`102 105 108 101 32 39`, the escaped path, `39 10`), in exactly the order of
the caller's list (no re-sorting), and the escaping replaces every embedded
single-quote byte `39` of the path by `39 92 39 39`. -/
theorem concat_manifest_lines (chunks : List (List Nat)) :
    concat_content chunks =
      (chunks.map fun p =>
        [102, 105, 108, 101, 32, 39] ++ escape_single_quotes p ++ [39, 10]).flatten
    ∧ ∀ p : List Nat, escape_single_quotes p =
        p.flatMap fun b => if b = 39 then [39, 92, 39, 39] else [b] := by
  constructor
  · have aux : ∀ (cs : List (List Nat)) (acc : List Nat),
        cs.foldl (fun content c =>
          content ++ ([102, 105, 108, 101, 32, 39] ++ escape_single_quotes c ++ [39, 10])) acc
          = acc ++ (cs.map fun p =>
              [102, 105, 108, 101, 32, 39] ++ escape_single_quotes p ++ [39, 10]).flatten := by
      intro cs
      induction cs with
      | nil => intro acc; simp
      | cons c cs ih =>
        intro acc
        rw [List.map_cons, List.flatten_cons, List.foldl_cons, ih, List.append_assoc]
    simpa [concat_content] using aux chunks []
  · intro p
    induction p with
    | nil => rfl
    | cons b bs ih => by_cases hb : b = 39 <;> simp [escape_single_quotes, hb, ih]

/-- Counterexample for C5 as stated: at `end = -2`, which is not the
to-end-of-file sentinel `-1.0` used by the caller, the extraction still omits
the duration argument, because the code tests `end >= 0.0`, not equality with
the sentinel. -/
theorem extract_negative_end_not_sentinel :
    has_duration_arg (extract_chunk_args [97] 0 (-2) [98]) = false ∧ (-2 : ℚ) ≠ -1 := by
  constructor <;> decide

/-- Claim C5 (amended): the single-extraction primitive omits the duration
argument exactly when `end` is negative (the caller's sentinel `-1.0` being
one such value); otherwise it passes a duration computed as `end - start`
with no non-negativity guard. -/
theorem extract_duration_iff_nonneg_end (input : List Nat) (s e : ℚ) (output : List Nat) :
    (has_duration_arg (extract_chunk_args input s e output) = false ↔ e < 0)
    ∧ (0 ≤ e → extract_chunk_args input s e output =
        [Arg.flag "-i", Arg.path input, Arg.flag "-ss", Arg.time s, Arg.flag "-t",
         Arg.time (e - s), Arg.flag "-c", Arg.flag "copy", Arg.path output]) := by
  constructor
  · by_cases h : (0 : ℚ) ≤ e
    · simp [extract_chunk_args, has_duration_arg, h, not_lt.2 h]
    · simp [extract_chunk_args, has_duration_arg, h, lt_of_not_ge h]
  · intro h
    simp [extract_chunk_args, h]

/-- Witness for C5 (amended) at `start = 2`, `end = 5`: the duration argument
`5 - 2` is passed. -/
theorem extract_duration_iff_nonneg_end_witness :
    extract_chunk_args [97] 2 5 [98] =
      [Arg.flag "-i", Arg.path [97], Arg.flag "-ss", Arg.time 2, Arg.flag "-t",
       Arg.time (5 - 2), Arg.flag "-c", Arg.flag "copy", Arg.path [98]] :=
  (extract_duration_iff_nonneg_end [97] 2 5 [98]).2 (by norm_num)

/-- Claim C7: for every external invocation made by segmentation, merging, or
single-region extraction that exits with a non-zero status, the operation
returns the process error whose detail is exactly the captured standard-error
bytes of that invocation, with no local recovery or retry (the trace shows a
single invocation and the error is returned directly). -/
theorem nonzero_exit_error_detail :
    (∀ (input output_dir : List Nat) (dur : Nat) (cmd : CmdOut) (readOk : Bool)
        (listing : List (List Nat)), cmd.status = false →
      split_into_chunks ⟨some input, some output_dir, some dur⟩ true cmd readOk listing =
        (Except.error (Err.process cmd.stderr),
         [segment_args input dur (path_join output_dir chunk_pattern)]))
    ∧ (∀ (tmpDir : List Nat) (chunks : List (List Nat)) (output_path : List Nat)
        (cmd : CmdOut), cmd.status = false →
      merge_chunks tmpDir chunks output_path true cmd =
        (Except.error (Err.process cmd.stderr),
         [concat_args (path_join tmpDir concat_txt) output_path]))
    ∧ (∀ (input : List Nat) (s e : ℚ) (output : List Nat) (o : CmdOut), o.status = false →
      extract_chunk input s e output o = Except.error (Err.process o.stderr)) := by
  refine ⟨?_, ?_, ?_⟩
  · intro input output_dir dur cmd readOk listing h
    simp [split_into_chunks, h]
  · intro tmpDir chunks output_path cmd h
    simp [merge_chunks, create_concat_file, h]
  · intro input s e output o h
    simp [extract_chunk, h]

/-- Witness for C7: a failing extraction surfaces its captured standard-error
bytes verbatim. -/
theorem nonzero_exit_error_detail_witness :
    extract_chunk [97] 0 1 [98] ⟨false, [], [104, 105]⟩ =
      Except.error (Err.process [104, 105]) :=
  nonzero_exit_error_detail.2.2 [97] 0 1 [98] ⟨false, [], [104, 105]⟩ rfl

/-- Claim C2: when the segmentation invocation reports success but the
directory scan finds zero matching chunk files, `split_into_chunks` returns
the distinct no-output-produced error, never a successful empty sequence, and
that failure is a different outcome from the non-zero-exit failure. -/
theorem split_empty_scan_error (input output_dir : List Nat) (dur : Nat) (cmd : CmdOut)
    (listing : List (List Nat)) (hs : cmd.status = true)
    (he : listing.filter chunk_filter = []) :
    (split_into_chunks ⟨some input, some output_dir, some dur⟩ true cmd true listing).1 =
      Except.error (Err.empty "No chunks were created")
    ∧ ∀ (stderrBytes : List Nat) (msg : String), Err.empty msg ≠ Err.process stderrBytes := by
  constructor
  · simp [split_into_chunks, hs, he]
  · intro s m h
    exact Err.noConfusion h

/-- Witness for C2 on an empty directory listing after a successful run. -/
theorem split_empty_scan_error_witness :
    (split_into_chunks ⟨some [97], some [100], some 2⟩ true ⟨true, [], []⟩ true []).1 =
      Except.error (Err.empty "No chunks were created")
    ∧ ∀ (stderrBytes : List Nat) (msg : String), Err.empty msg ≠ Err.process stderrBytes :=
  split_empty_scan_error [97] [100] 2 ⟨true, [], []⟩ [] rfl rfl

/-- Claim C8 (amended): whenever the input file, the output directory, or the
chunk duration is unset, `split_into_chunks` fails with a configuration error
(the `expect` panic surfaced to the caller) and issues no external
invocation; positivity of a set duration is not checked. -/
theorem split_config_unset_error (cfg : FFmpegClient) (dirOk readOk : Bool) (cmd : CmdOut)
    (listing : List (List Nat))
    (h : cfg.input_file = none ∨ cfg.output_dir = none ∨ cfg.chunk_duration = none) :
    (∃ msg, (split_into_chunks cfg dirOk cmd readOk listing).1 = Except.error (Err.config msg))
    ∧ (split_into_chunks cfg dirOk cmd readOk listing).2 = [] := by
  obtain ⟨i, o, d⟩ := cfg
  rcases h with h | h | h
  · subst h
    exact ⟨⟨"Input file not set", rfl⟩, rfl⟩
  · subst h
    cases i <;> exact ⟨⟨_, rfl⟩, rfl⟩
  · subst h
    cases i <;> cases o <;> exact ⟨⟨_, rfl⟩, rfl⟩

/-- Witness for C8 (amended) with all three configuration fields unset. -/
theorem split_config_unset_error_witness :
    (∃ msg, (split_into_chunks ⟨none, none, none⟩ true ⟨true, [], []⟩ true []).1 =
      Except.error (Err.config msg))
    ∧ (split_into_chunks ⟨none, none, none⟩ true ⟨true, [], []⟩ true []).2 = [] :=
  split_config_unset_error ⟨none, none, none⟩ true true ⟨true, [], []⟩ [] (Or.inl rfl)

/-- Counterexample for C8 as stated: with a configured chunk duration of zero
seconds a positive chunk duration is not set, yet the operation does not fail
with a configuration error - it proceeds to invoke the external tool (the
trace holds the segmentation invocation) and returns success. -/
theorem split_zero_duration_proceeds :
    split_into_chunks ⟨some [97], some [100], some 0⟩ true ⟨true, [], []⟩ true
        [[100, 47, 99, 104, 117, 110, 107, 95, 48, 48, 48, 46, 109, 112, 51]] =
      (Except.ok [[100, 47, 99, 104, 117, 110, 107, 95, 48, 48, 48, 46, 109, 112, 51]],
       [segment_args [97] 0 (path_join [100] chunk_pattern)]) := by
  have hp : chunk_filter
      [100, 47, 99, 104, 117, 110, 107, 95, 48, 48, 48, 46, 109, 112, 51] = true := by decide
  simp [split_into_chunks, List.filter, hp]

/-- Counterexample for C9 as stated: for the empty chunk list the merge
operation raises no up-front validation error - it writes the (empty)
manifest and invokes the external concatenation tool, returning success when
the tool succeeds. -/
theorem merge_empty_not_validated :
    merge_chunks [116] [] [111] true ⟨true, [], []⟩ =
      (Except.ok [111], [concat_args (path_join [116] concat_txt) [111]])
    ∧ concat_content [] = [] :=
  ⟨rfl, rfl⟩

/-- Claim C9 (amended): for the empty list of chunks the merge operation
performs no up-front validation: it writes an empty manifest and invokes the
external concatenation tool once, surfacing only that tool's outcome. -/
theorem merge_empty_invokes_tool (tmpDir output_path : List Nat) (cmd : CmdOut) :
    merge_chunks tmpDir [] output_path true cmd =
      ((if cmd.status then Except.ok output_path else Except.error (Err.process cmd.stderr)),
       [concat_args (path_join tmpDir concat_txt) output_path])
    ∧ concat_content [] = [] := by
  refine ⟨?_, rfl⟩
  cases h : cmd.status <;> simp [merge_chunks, create_concat_file, h]

/-- Claim C1: every successful `split_at_region s e` call returns exactly
three chunk paths in the fixed role order before, selected, after, produced
by extractions over the windows `0` to `s`, `s` to `e`, and `e` to
end-of-file (the `-1` sentinel), regardless of degenerate values of `s` and
`e`. -/
theorem split_at_region_ok_three (cfg : FFmpegClient) (s e : ℚ) (o1 o2 o3 : CmdOut)
    (res : List (List Nat)) (trace : List (List Arg)) (files : List (List Nat))
    (h : split_at_region cfg s e o1 o2 o3 = (Except.ok res, trace, files)) :
    ∃ input output_dir,
      cfg.input_file = some input ∧ cfg.output_dir = some output_dir ∧
      res = [path_join output_dir before_name, path_join output_dir selected_name,
             path_join output_dir after_name] ∧
      res.length = 3 ∧
      trace = [extract_chunk_args input 0 s (path_join output_dir before_name),
               extract_chunk_args input s e (path_join output_dir selected_name),
               extract_chunk_args input e (-1) (path_join output_dir after_name)] := by
  obtain ⟨i, o, d⟩ := cfg
  cases i with
  | none => simp [split_at_region] at h
  | some input =>
    cases o with
    | none => simp [split_at_region] at h
    | some output_dir =>
      cases h1 : o1.status with
      | false => simp [split_at_region, extract_chunk, h1] at h
      | true =>
        cases h2 : o2.status with
        | false => simp [split_at_region, extract_chunk, h1, h2] at h
        | true =>
          cases h3 : o3.status with
          | false => simp [split_at_region, extract_chunk, h1, h2, h3] at h
          | true =>
            simp [split_at_region, extract_chunk, h1, h2, h3, Prod.ext_iff] at h
            obtain ⟨hres, htrace, hfiles⟩ := h
            exact ⟨input, output_dir, rfl, rfl, hres.symm, by simp [hres.symm],
                   htrace.symm⟩

/-- Witness for C1 on a concrete successful run with `s = 1`, `e = 2`. -/
theorem split_at_region_ok_three_witness :
    ∃ input output_dir,
      (FFmpegClient.mk (some [97]) (some [100]) none).input_file = some input ∧
      (FFmpegClient.mk (some [97]) (some [100]) none).output_dir = some output_dir ∧
      [path_join [100] before_name, path_join [100] selected_name,
       path_join [100] after_name] =
        [path_join output_dir before_name, path_join output_dir selected_name,
         path_join output_dir after_name] ∧
      ([path_join [100] before_name, path_join [100] selected_name,
        path_join [100] after_name] : List (List Nat)).length = 3 ∧
      [extract_chunk_args [97] 0 1 (path_join [100] before_name),
       extract_chunk_args [97] 1 2 (path_join [100] selected_name),
       extract_chunk_args [97] 2 (-1) (path_join [100] after_name)] =
        [extract_chunk_args input 0 1 (path_join output_dir before_name),
         extract_chunk_args input 1 2 (path_join output_dir selected_name),
         extract_chunk_args input 2 (-1) (path_join output_dir after_name)] :=
  split_at_region_ok_three ⟨some [97], some [100], none⟩ 1 2
    ⟨true, [], []⟩ ⟨true, [], []⟩ ⟨true, [], []⟩ _ _ _ rfl

/-- Claim C10: `split_at_region` performs its extractions strictly in the
order before, selected, after and short-circuits on the first failure: later
invocations are never issued, the failing extraction's error is returned
unchanged, and the chunk files created by the earlier successful extractions
remain on disk. -/
theorem split_at_region_short_circuit (input output_dir : List Nat) (d : Option Nat)
    (s e : ℚ) (o1 o2 o3 : CmdOut) :
    (o1.status = false →
      split_at_region ⟨some input, some output_dir, d⟩ s e o1 o2 o3 =
        (Except.error (Err.process o1.stderr),
         [extract_chunk_args input 0 s (path_join output_dir before_name)], [])
      ∧ extract_chunk input 0 s (path_join output_dir before_name) o1 =
          Except.error (Err.process o1.stderr))
    ∧ (o1.status = true → o2.status = false →
      split_at_region ⟨some input, some output_dir, d⟩ s e o1 o2 o3 =
        (Except.error (Err.process o2.stderr),
         [extract_chunk_args input 0 s (path_join output_dir before_name),
          extract_chunk_args input s e (path_join output_dir selected_name)],
         [path_join output_dir before_name])
      ∧ extract_chunk input s e (path_join output_dir selected_name) o2 =
          Except.error (Err.process o2.stderr))
    ∧ (o1.status = true → o2.status = true → o3.status = false →
      split_at_region ⟨some input, some output_dir, d⟩ s e o1 o2 o3 =
        (Except.error (Err.process o3.stderr),
         [extract_chunk_args input 0 s (path_join output_dir before_name),
          extract_chunk_args input s e (path_join output_dir selected_name),
          extract_chunk_args input e (-1) (path_join output_dir after_name)],
         [path_join output_dir before_name, path_join output_dir selected_name])
      ∧ extract_chunk input e (-1) (path_join output_dir after_name) o3 =
          Except.error (Err.process o3.stderr)) := by
  refine ⟨?_, ?_, ?_⟩
  · intro h1
    exact ⟨by simp [split_at_region, extract_chunk, h1], by simp [extract_chunk, h1]⟩
  · intro h1 h2
    exact ⟨by simp [split_at_region, extract_chunk, h1, h2], by simp [extract_chunk, h2]⟩
  · intro h1 h2 h3
    exact ⟨by simp [split_at_region, extract_chunk, h1, h2, h3], by simp [extract_chunk, h3]⟩

/-- Witness for C10: the first extraction fails, only one invocation is
issued, and its error is surfaced unchanged. -/
theorem split_at_region_short_circuit_witness :
    split_at_region ⟨some [97], some [100], none⟩ 1 2
        ⟨false, [], [104]⟩ ⟨true, [], []⟩ ⟨true, [], []⟩ =
      (Except.error (Err.process [104]),
       [extract_chunk_args [97] 0 1 (path_join [100] before_name)], [])
    ∧ extract_chunk [97] 0 1 (path_join [100] before_name) ⟨false, [], [104]⟩ =
        Except.error (Err.process [104]) :=
  (split_at_region_short_circuit [97] [100] none 1 2
    ⟨false, [], [104]⟩ ⟨true, [], []⟩ ⟨true, [], []⟩).1 rfl

/-- Claim C6: after a successful segmentation invocation `split_into_chunks`
returns exactly the listed paths that pass `chunk_filter` (extension `mp3`
and no literal `%03d` placeholder in the file name) - none omitted, no other
included - sorted ascending byte-lexicographically. -/
theorem split_scan_filter_sorted (input output_dir : List Nat) (dur : Nat) (cmd : CmdOut)
    (listing res : List (List Nat)) (trace : List (List Arg))
    (h : split_into_chunks ⟨some input, some output_dir, some dur⟩ true cmd true listing =
      (Except.ok res, trace)) :
    res.Perm (listing.filter chunk_filter)
    ∧ res.Pairwise (fun a b => lexLe a b = true)
    ∧ (∀ p, p ∈ res ↔ p ∈ listing ∧ chunk_filter p = true) := by
  cases hs : cmd.status with
  | false => simp [split_into_chunks, hs] at h
  | true =>
    cases hne : ((listing.filter chunk_filter).mergeSort lexLe).isEmpty with
    | true => simp [split_into_chunks, hs, hne] at h
    | false =>
      simp [split_into_chunks, hs, hne, Prod.mk.injEq] at h
      obtain ⟨hres, htrace⟩ := h
      subst hres
      refine ⟨List.mergeSort_perm _ _, ?_, ?_⟩
      · exact List.sorted_mergeSort lexLe_trans lexLe_total _
      · intro p
        simp [List.mem_filter]

/-- Witness for C6 on a one-entry directory listing. -/
theorem split_scan_filter_sorted_witness :
    ([[100, 47, 99, 104, 117, 110, 107, 95, 48, 48, 48, 46, 109, 112, 51]] :
        List (List Nat)).Perm
      (List.filter chunk_filter
        [[100, 47, 99, 104, 117, 110, 107, 95, 48, 48, 48, 46, 109, 112, 51]])
    ∧ ([[100, 47, 99, 104, 117, 110, 107, 95, 48, 48, 48, 46, 109, 112, 51]] :
        List (List Nat)).Pairwise (fun a b => lexLe a b = true)
    ∧ (∀ p, p ∈ ([[100, 47, 99, 104, 117, 110, 107, 95, 48, 48, 48, 46, 109, 112, 51]] :
        List (List Nat)) ↔
        p ∈ ([[100, 47, 99, 104, 117, 110, 107, 95, 48, 48, 48, 46, 109, 112, 51]] :
          List (List Nat)) ∧ chunk_filter p = true) :=
  split_scan_filter_sorted [97] [100] 2 ⟨true, [], []⟩
    [[100, 47, 99, 104, 117, 110, 107, 95, 48, 48, 48, 46, 109, 112, 51]]
    [[100, 47, 99, 104, 117, 110, 107, 95, 48, 48, 48, 46, 109, 112, 51]]
    [segment_args [97] 2 (path_join [100] chunk_pattern)]
    (by
      have hp : chunk_filter
          [100, 47, 99, 104, 117, 110, 107, 95, 48, 48, 48, 46, 109, 112, 51] = true := by
        decide
      simp [split_into_chunks, List.filter, hp])
